import Mathlib

/-!
Verification of the PharmaCals pricing calculator and its voice-control
session logic.  The numeric model uses exact rationals: every arithmetic
step of the source (`* (1 - p/100)`, `* 100/105`, `* 0.80`, `* 0.05`,
`* 32768`, `/ 32768`) is multiplication or division, which we mirror
exactly over `ℚ`.
-/

namespace PharmaCalcs

/-- The two input interpretations of the calculator (`calculationMode`). -/
inductive Mode
  | original
  | new
deriving DecidableEq, Repr

/-- One derived row of the result table (`CalculationRow` in types.ts). -/
structure CalculationRow where
  label : String
  reductionPercent : ℚ
  inputMrp : ℚ
  newMrp : ℚ
  intermediateTradePrice : ℚ
  finalTradePrice : ℚ
  gstAmount : ℚ
deriving DecidableEq, Repr

/-- `processRow` from App.tsx: derives one rule row from the input value
in the given mode.  In `original` mode `newMrp = val * (1 - p/100)`;
in `new` mode `originalMrp = val / (1 - p/100)`; then
`intermediate = newMrp * 100/105`, `final = intermediate * 0.80`,
`gst = final * 0.05`. -/
def processRow (mode : Mode) (val : ℚ) (reductionPercent : ℚ) (label : String) :
    CalculationRow :=
  let originalMrp : ℚ :=
    match mode with
    | Mode.original => val
    | Mode.new => val / (1 - reductionPercent / 100)
  let newMrp : ℚ :=
    match mode with
    | Mode.original => val * (1 - reductionPercent / 100)
    | Mode.new => val
  let intermediatePrice := newMrp * (100 / 105)
  let finalTradePrice := intermediatePrice * (80 / 100)
  let gstAmount := finalTradePrice * (5 / 100)
  { label := label
    reductionPercent := reductionPercent
    inputMrp := originalMrp
    newMrp := newMrp
    intermediateTradePrice := intermediatePrice
    finalTradePrice := finalTradePrice
    gstAmount := gstAmount }

/-- The snapshot of both rule rows (`CalculationResult` in types.ts). -/
structure CalculationResult where
  row12 : CalculationRow
  row18 : CalculationRow
deriving DecidableEq, Repr

/-- `calculate` from App.tsx: both fixed rules applied to the amount. -/
def calculate (amount : ℚ) (mode : Mode) : CalculationResult :=
  { row12 := processRow mode amount (625 / 100) "12% GST Rule"
    row18 := processRow mode amount (1102 / 100) "18% GST Rule" }

/-- C1: computing `newMrp` from a positive amount in original mode and
feeding it back in new mode reproduces the amount within relative
tolerance 1e-9 (in the exact-rational model the round trip is exact,
hence within any tolerance), for every rule percentage in (0, 100). -/
theorem roundTrip_mode_symmetry (r a : ℚ) (lbl : String)
    (hr0 : 0 < r) (hr1 : r < 100) (ha : 0 < a) :
    |(processRow Mode.new ((processRow Mode.original a r lbl).newMrp) r lbl).inputMrp - a|
      ≤ a / 1000000000 := by
  have hne : 1 - r / 100 ≠ 0 := by
    intro h
    have : r = 100 := by linarith [h]
    linarith
  have hval : (processRow Mode.new ((processRow Mode.original a r lbl).newMrp) r lbl).inputMrp
      = a * (1 - r / 100) / (1 - r / 100) := by
    simp [processRow]
  rw [hval, mul_div_assoc, div_self hne, mul_one, sub_self, abs_zero]
  positivity

/-- Witness for C1 at the 6.25% rule on amount 100. -/
theorem roundTrip_mode_symmetry_witness :
    (0 : ℚ) < 625 / 100 ∧ (625 : ℚ) / 100 < 100 ∧ (0 : ℚ) < 100 ∧
    |(processRow Mode.new ((processRow Mode.original 100 (625 / 100) "12% GST Rule").newMrp)
        (625 / 100) "12% GST Rule").inputMrp - 100| ≤ 100 / 1000000000 :=
  ⟨by norm_num, by norm_num, by norm_num,
    roundTrip_mode_symmetry (625 / 100) 100 "12% GST Rule"
      (by norm_num) (by norm_num) (by norm_num)⟩

/-- C2: with input amount 100 in original mode, the 6.25% rule quote has
`newMrp = 93.75`, `intermediateTradePrice = 93.75 * 100/105 = 625/7`,
`finalTradePrice = 625/7 * 0.80 = 500/7`, `gstAmount = 500/7 * 0.05 = 25/7`;
and the 11.02% rule has `newMrp = 88.98`. -/
theorem chained_derivation_at_100 :
    (calculate 100 Mode.original).row12.newMrp = 9375 / 100 ∧
    (calculate 100 Mode.original).row12.intermediateTradePrice = (9375 / 100) * (100 / 105) ∧
    (calculate 100 Mode.original).row12.intermediateTradePrice = 625 / 7 ∧
    (calculate 100 Mode.original).row12.finalTradePrice = (625 / 7) * (80 / 100) ∧
    (calculate 100 Mode.original).row12.finalTradePrice = 500 / 7 ∧
    (calculate 100 Mode.original).row12.gstAmount = (500 / 7) * (5 / 100) ∧
    (calculate 100 Mode.original).row12.gstAmount = 25 / 7 ∧
    (calculate 100 Mode.original).row18.newMrp = 8898 / 100 := by
  refine ⟨?_, ?_, ?_, ?_, ?_, ?_, ?_, ?_⟩ <;>
    · simp only [calculate, processRow]
      norm_num

/-- The committed calculator input (`mrpInput` text and `calculationMode`). -/
structure InputState where
  amountText : String
  mode : Mode
deriving DecidableEq, Repr

/-- Decimal digits of a natural number, most significant first (fuelled). -/
def natDigitsAux : Nat → Nat → List Char
  | 0, _ => []
  | fuel + 1, n =>
    if n = 0 then []
    else natDigitsAux fuel (n / 10) ++ [Nat.digitChar (n % 10)]

/-- Decimal rendering of a natural number. -/
def natToDecimalString (n : Nat) : String :=
  if n = 0 then "0" else String.mk (natDigitsAux 40 n)

/-- Digits after the decimal point by long division of `n` by `d`
(fuelled; terminates at remainder zero, so it is exact for denominators
of the form 2^a * 5^b, which covers every value the claims evaluate). -/
def fracDigitsAux : Nat → Nat → Nat → List Char
  | 0, _, _ => []
  | fuel + 1, n, d =>
    if n = 0 then []
    else Nat.digitChar (n * 10 / d) :: fracDigitsAux fuel (n * 10 % d) d

/-- Model of JavaScript `Number.prototype.toString` on the plain-decimal
range (no exponent shortening): sign, integer digits, and fractional
digits when non-zero.  Agrees with JS for every finite-decimal value
used in the claims (250 → "250", -5 → "-5", 93.75 → "93.75"). -/
def jsNumberToString (q : ℚ) : String :=
  let sign := if q < 0 then "-" else ""
  let n := q.num.natAbs
  let d := q.den
  let fracs := fracDigitsAux 64 (n % d) d
  sign ++ natToDecimalString (n / d) ++
    (if fracs = [] then "" else "." ++ String.mk fracs)

/-- The manual-input pattern of `handleInputChange` in App.tsx:
`/^\d*\.?\d*$/`, i.e. every character is a digit or a dot and at most
one dot occurs. -/
def decimalPattern (v : String) : Bool :=
  v.toList.all (fun c => c.isDigit || c = '.') &&
    (v.toList.filter (fun c => c = '.')).length ≤ 1

/-- `handleInputChange` from App.tsx: commit the keystroke value only when
it is empty or matches the decimal pattern; otherwise the text is left
unchanged. -/
def handleInputChange (s : InputState) (value : String) : InputState :=
  if value = "" || decimalPattern value then { s with amountText := value } else s

/-- Numeric value of a digit string (used by the parseFloat model). -/
def digitsNat (l : List Char) : ℕ :=
  l.foldl (fun a c => a * 10 + (c.toNat - 48)) 0

/-- Model of JavaScript `parseFloat` restricted to plain decimal strings
(optional sign, digits, optional dot, digits); `none` models `NaN`. -/
def parseDecimal (v : String) : Option ℚ :=
  let (sgn, l) :=
    match v.toList with
    | '-' :: rest => ((-1 : ℚ), rest)
    | l => ((1 : ℚ), l)
  if l.all (fun c => c.isDigit || c = '.') && (l.filter (fun c => c = '.')).length ≤ 1 then
    let ipart := l.takeWhile (fun c => c ≠ '.')
    let fpart := (l.dropWhile (fun c => c ≠ '.')).drop 1
    if ipart = [] ∧ fpart = [] then none
    else some (sgn * ((digitsNat ipart : ℚ) + (digitsNat fpart : ℚ) / (10 : ℚ) ^ fpart.length))
  else none

/-- The recomputation effect from App.tsx: parse the committed text; when
it is a number strictly greater than zero compute both rows, otherwise
clear the snapshot. -/
def recompute (s : InputState) : Option CalculationResult :=
  match parseDecimal s.amountText with
  | some n => if 0 < n then some (calculate n s.mode) else none
  | none => none

/-- One inbound function call of a tool-call message: its id, its name,
and the `amount` / `mode` members of its argument object (absent members
modelled as `none`). -/
structure FnCall where
  id : String
  name : String
  amountArg : Option ℚ
  modeArg : Option String
deriving DecidableEq, Repr

/-- A tool response sent back over the session, keyed by the call id. -/
structure Ack where
  id : String
  name : String
  result : String
deriving DecidableEq, Repr

/-- The tool-call branch of the `onmessage` handler in App.tsx, for one
function call: `updateMrp` stringifies the amount into the committed
text and acknowledges (a missing amount makes `toString` throw, modelled
as `none`); `switchMode` mutates the mode and acknowledges only when the
argument is exactly "original" or "new"; every other case does nothing
and sends nothing. -/
def handleFunctionCall (s : InputState) (fc : FnCall) :
    Option (InputState × List Ack) :=
  if fc.name = "updateMrp" then
    match fc.amountArg with
    | some a =>
        some ({ s with amountText := jsNumberToString a },
          [{ id := fc.id, name := fc.name, result := "ok, updated value" }])
    | none => none
  else if fc.name = "switchMode" then
    match fc.modeArg with
    | some m =>
        if m = "original" then
          some ({ s with mode := Mode.original },
            [{ id := fc.id, name := fc.name, result := "switched to " ++ m ++ " mode" }])
        else if m = "new" then
          some ({ s with mode := Mode.new },
            [{ id := fc.id, name := fc.name, result := "switched to " ++ m ++ " mode" }])
        else some (s, [])
    | none => some (s, [])
  else some (s, [])

/-- The whole tool-call loop of `onmessage`: calls handled left to right;
a throw (modelled `none`) aborts the remaining calls.  The boolean flags
whether a throw occurred. -/
def handleToolCall (s : InputState) (calls : List FnCall) :
    InputState × List Ack × Bool :=
  match calls with
  | [] => (s, [], false)
  | fc :: rest =>
    match handleFunctionCall s fc with
    | none => (s, [], true)
    | some (s2, acks) =>
      let (s3, acks2, crashed) := handleToolCall s2 rest
      (s3, acks ++ acks2, crashed)

/-- The manual mode-toggle buttons of App.tsx invoke only
`setCalculationMode`, leaving every other piece of input state intact. -/
def setMode (s : InputState) (m : Mode) : InputState := { s with mode := m }

/-- C3 counterexample: a `switchMode` call with the malformed mode
argument "loud" mutates nothing but also sends NO acknowledgment (the
acknowledgment list is empty), contradicting the claim that every
tool-call is acknowledged. -/
theorem invalid_switchMode_unacknowledged_cex :
    handleFunctionCall ⟨"100", Mode.original⟩ ⟨"call7", "switchMode", none, some "loud"⟩
      = some (⟨"100", Mode.original⟩, []) := by decide

/-- C3 (amended): a tool-call whose name is neither `updateMrp` nor
`switchMode`, or a `switchMode` call whose mode argument is not exactly
"original" or "new", mutates neither the amount text nor the mode and
sends no acknowledgment at all. -/
theorem unrecognized_toolCall_silent (s : InputState) (fc : FnCall)
    (h1 : fc.name ≠ "updateMrp")
    (h2 : fc.name = "switchMode" →
      fc.modeArg ≠ some "original" ∧ fc.modeArg ≠ some "new") :
    handleFunctionCall s fc = some (s, []) := by
  unfold handleFunctionCall
  rw [if_neg h1]
  by_cases hsw : fc.name = "switchMode"
  · rw [if_pos hsw]
    cases hm : fc.modeArg with
    | none => rfl
    | some m =>
      obtain ⟨ho, hn⟩ := h2 hsw
      rw [hm] at ho hn
      have ho2 : ¬ m = "original" := fun e => ho (by rw [e])
      have hn2 : ¬ m = "new" := fun e => hn (by rw [e])
      simp only [if_neg ho2, if_neg hn2]
  · rw [if_neg hsw]

/-- Witness for C3 (amended) on a concrete malformed `switchMode` call. -/
theorem unrecognized_toolCall_silent_witness :
    (("switchMode" : String) ≠ "updateMrp") ∧
    handleFunctionCall ⟨"100", Mode.original⟩ ⟨"call8", "switchMode", none, some "slow"⟩
      = some (⟨"100", Mode.original⟩, []) :=
  ⟨by decide,
    unrecognized_toolCall_silent ⟨"100", Mode.original⟩
      ⟨"call8", "switchMode", none, some "slow"⟩ (by decide) (by decide)⟩

/-- C4 counterexample: a tool-call named `updateAmount` (the spec's name
for the tool) carrying amount 250 matches no branch of the handler: the
amount text stays "100" and no acknowledgment is sent. -/
theorem updateAmount_name_cex :
    handleFunctionCall ⟨"100", Mode.original⟩ ⟨"call1", "updateAmount", some 250, none⟩
      = some (⟨"100", Mode.original⟩, []) := by decide

/-- C4 (amended): the mutating tool is named `updateMrp`; such a call
with a numeric amount sets the amount text to the stringified argument
and sends a success acknowledgment keyed by the call id, and for amount
250 the subsequent recomputation yields the quotes for 250. -/
theorem updateMrp_commits_and_acknowledges (s : InputState) (i : String) (a : ℚ) :
    handleFunctionCall s ⟨i, "updateMrp", some a, none⟩
      = some ({ s with amountText := jsNumberToString a },
          [⟨i, "updateMrp", "ok, updated value"⟩]) ∧
    jsNumberToString 250 = "250" ∧
    recompute ⟨jsNumberToString 250, Mode.original⟩
      = some (calculate 250 Mode.original) := by
  have hstr : jsNumberToString 250 = "250" := by decide
  have hp : parseDecimal "250"
      = some ((1 : ℚ) * (((250 : ℕ) : ℚ) + ((0 : ℕ) : ℚ) / (10 : ℚ) ^ (0 : ℕ))) := rfl
  have hv : ((1 : ℚ) * (((250 : ℕ) : ℚ) + ((0 : ℕ) : ℚ) / (10 : ℚ) ^ (0 : ℕ)))
      = (250 : ℚ) := by norm_num
  rw [hv] at hp
  refine ⟨rfl, hstr, ?_⟩
  rw [hstr]
  simp only [recompute, hp]
  rw [if_pos (by norm_num : (0 : ℚ) < 250)]

/-- C9: switching the mode — via the manual toggle (`setMode`) or via a
valid `switchMode` tool-call — leaves the committed amount text
unchanged. -/
theorem modeSwitch_preserves_amountText (s : InputState) (m : Mode) (i mstr : String)
    (h : mstr = "original" ∨ mstr = "new") :
    (setMode s m).amountText = s.amountText ∧
    (handleFunctionCall s ⟨i, "switchMode", none, some mstr⟩).map (fun p => p.1.amountText)
      = some s.amountText := by
  refine ⟨rfl, ?_⟩
  rcases h with h | h <;> subst h <;> rfl

/-- Witness for C9 on a concrete state and a `switchMode new` call. -/
theorem modeSwitch_preserves_amountText_witness :
    (("new" : String) = "original" ∨ ("new" : String) = "new") ∧
    (setMode ⟨"100", Mode.original⟩ Mode.new).amountText = "100" ∧
    (handleFunctionCall ⟨"100", Mode.original⟩ ⟨"c2", "switchMode", none, some "new"⟩).map
        (fun p => p.1.amountText) = some "100" :=
  ⟨Or.inr rfl,
    (modeSwitch_preserves_amountText ⟨"100", Mode.original⟩ Mode.new "c2" "new" (Or.inr rfl)).1,
    (modeSwitch_preserves_amountText ⟨"100", Mode.original⟩ Mode.new "c2" "new" (Or.inr rfl)).2⟩

/-- C10: the voice path commits `String(amount)` unconditionally, and for
a negative argument such as -5 the committed text "-5" is one the manual
input handler's pattern rejects (the manual handler would leave the text
unchanged). -/
theorem voice_bypasses_manual_validation (s : InputState) (i : String) (a : ℚ) :
    handleFunctionCall s ⟨i, "updateMrp", some a, none⟩
      = some ({ s with amountText := jsNumberToString a },
          [⟨i, "updateMrp", "ok, updated value"⟩]) ∧
    jsNumberToString (-5) = "-5" ∧
    decimalPattern "-5" = false ∧
    handleInputChange s "-5" = s := by
  refine ⟨rfl, by decide, by decide, ?_⟩
  unfold handleInputChange
  rw [if_neg (by decide)]

/-- The voice-session resource state: the four ref-held handles
(`mediaStreamRef`, `inputAudioContextRef`, `audioContextRef`,
`sessionRef`, each `true` when non-null), the set of scheduled playback
source nodes (`sourcesRef`, by identifier), and the two UI flags. -/
structure SessionState where
  mediaStream : Bool
  inputAudioContext : Bool
  outputAudioContext : Bool
  session : Bool
  sources : List Nat
  isLiveActive : Bool
  isAiSpeaking : Bool
deriving DecidableEq, Repr

/-- `stopAudio` from App.tsx: null-guarded release of the capture stream,
both audio contexts and the stream session, then stop and clear every
scheduled source and drop both flags. -/
def stopAudio (s : SessionState) : SessionState :=
  let s1 := if s.mediaStream then { s with mediaStream := false } else s
  let s2 := if s1.inputAudioContext then { s1 with inputAudioContext := false } else s1
  let s3 := if s2.outputAudioContext then { s2 with outputAudioContext := false } else s2
  let s4 := if s3.session then { s3 with session := false } else s3
  { s4 with sources := [], isLiveActive := false, isAiSpeaking := false }

/-- The `onclose` callback from App.tsx: it only clears the live-active
flag (it does not invoke `stopAudio`). -/
def onclose (s : SessionState) : SessionState := { s with isLiveActive := false }

/-- The fully released state: every handle null, no scheduled sources. -/
def idleState : SessionState :=
  { mediaStream := false
    inputAudioContext := false
    outputAudioContext := false
    session := false
    sources := []
    isLiveActive := false
    isAiSpeaking := false }

/-- `stopAudio` releases everything regardless of the starting state. -/
theorem stopAudio_eq_idle (s : SessionState) : stopAudio s = idleState := by
  obtain ⟨a, b, c, d, e, f, g⟩ := s
  cases a <;> cases b <;> cases c <;> cases d <;> rfl

/-- C5 counterexample: on a fully active session (all four handles held,
one scheduled buffer), the remote-close callback leaves the microphone
stream, both audio contexts, the stream handle and the scheduled buffer
all in place — the resources are NOT released. -/
theorem onclose_leaks_resources_cex :
    onclose ⟨true, true, true, true, [1], true, false⟩
      = ⟨true, true, true, true, [1], false, false⟩ := rfl

/-- C5 (amended): the remote-close notification only clears the
live-active flag; the capture stream, both audio clocks, the stream
handle and the scheduled-buffer set are left exactly as they were (full
teardown runs only on explicit stop and on stream error). -/
theorem onclose_only_clears_active_flag (s : SessionState) :
    (onclose s).mediaStream = s.mediaStream ∧
    (onclose s).inputAudioContext = s.inputAudioContext ∧
    (onclose s).outputAudioContext = s.outputAudioContext ∧
    (onclose s).session = s.session ∧
    (onclose s).sources = s.sources ∧
    (onclose s).isAiSpeaking = s.isAiSpeaking ∧
    (onclose s).isLiveActive = false :=
  ⟨rfl, rfl, rfl, rfl, rfl, rfl, rfl⟩

/-- C8: teardown is idempotent — a second `stopAudio` changes nothing,
stopping a never-started session (all handles already null) is a no-op,
and after any stop all four handles are null and the scheduled-buffer
set is empty. -/
theorem stopAudio_idempotent (s : SessionState) :
    stopAudio (stopAudio s) = stopAudio s ∧
    stopAudio idleState = idleState ∧
    (stopAudio s).mediaStream = false ∧
    (stopAudio s).inputAudioContext = false ∧
    (stopAudio s).outputAudioContext = false ∧
    (stopAudio s).session = false ∧
    (stopAudio s).sources = [] := by
  rw [stopAudio_eq_idle s, stopAudio_eq_idle idleState]
  exact ⟨rfl, rfl, rfl, rfl, rfl, rfl, rfl⟩

/-- Truncation toward zero of a rational, as JavaScript ToIntegerOrInfinity
performs on a finite number. -/
def ratTrunc (q : ℚ) : ℤ := if 0 ≤ q then ⌊q⌋ else ⌈q⌉

/-- JavaScript ToInt16, applied on every store into an `Int16Array`:
truncate toward zero, reduce modulo 2^16, and reinterpret the residue as
a signed 16-bit value. -/
def toInt16 (q : ℚ) : ℤ :=
  let n := ratTrunc q % 65536
  if 32768 ≤ n then n - 65536 else n

/-- One sample of the capture path in `processor.onaudioprocess`:
`pcmData[i] = inputData[i] * 32768` stored into an `Int16Array`. -/
def encodeSample (x : ℚ) : ℤ := toInt16 (x * 32768)

/-- One sample of `decodeAudioData`: `dataInt16[i] / 32768.0`. -/
def decodeSample (i : ℤ) : ℚ := (i : ℚ) / 32768

/-- The capture path over a whole chunk of samples. -/
def encodePcm (l : List ℚ) : List ℤ := l.map encodeSample

/-- The playback decode path over a whole chunk (single channel). -/
def decodePcm (l : List ℤ) : List ℚ := l.map decodeSample

/-- The per-sample tolerance of the PCM round trip. -/
def withinQuantization (x y : ℚ) : Prop := |x - y| ≤ 1 / 32768

/-- On [-32768, 32768) the Int16 store does not wrap: it is plain
truncation, and the truncation error is at most one unit. -/
theorem toInt16_in_range (v : ℚ) (h1 : -32768 ≤ v) (h2 : v < 32768) :
    toInt16 v = ratTrunc v ∧ |v - (ratTrunc v : ℚ)| ≤ 1 := by
  by_cases hv : 0 ≤ v
  · have hf : ratTrunc v = ⌊v⌋ := if_pos hv
    have hn0 : 0 ≤ ⌊v⌋ := Int.floor_nonneg.mpr hv
    have hn1 : ⌊v⌋ < 32768 := by
      rw [Int.floor_lt]
      exact_mod_cast h2
    constructor
    · unfold toInt16
      rw [hf, Int.emod_eq_of_lt hn0 (by omega), if_neg (by omega)]
    · rw [hf]
      have hle : ((⌊v⌋ : ℤ) : ℚ) ≤ v := Int.floor_le v
      have hlt : v < ⌊v⌋ + 1 := Int.lt_floor_add_one v
      rw [abs_of_nonneg (by linarith)]
      linarith
  · push_neg at hv
    have hf : ratTrunc v = ⌈v⌉ := if_neg (not_le.mpr hv)
    have hle : v ≤ ((⌈v⌉ : ℤ) : ℚ) := Int.le_ceil v
    have hlt : ((⌈v⌉ : ℤ) : ℚ) < v + 1 := Int.ceil_lt_add_one v
    have hn0 : ⌈v⌉ ≤ 0 := by
      rw [Int.ceil_le]
      exact_mod_cast hv.le
    have hge : -32768 ≤ ⌈v⌉ := by
      have hc : ((-32768 : ℤ) : ℚ) ≤ ((⌈v⌉ : ℤ) : ℚ) := by
        calc ((-32768 : ℤ) : ℚ) = (-32768 : ℚ) := by norm_num
        _ ≤ v := h1
        _ ≤ _ := hle
      exact_mod_cast hc
    constructor
    · unfold toInt16
      rw [hf]
      by_cases h0 : ⌈v⌉ = 0
      · rw [h0]
        norm_num
      · have hneg : ⌈v⌉ < 0 := lt_of_le_of_ne hn0 h0
        have hm : ⌈v⌉ % 65536 = ⌈v⌉ + 65536 := by omega
        rw [hm, if_pos (by omega)]
        omega
    · rw [hf]
      rw [abs_of_nonpos (by linarith)]
      linarith

/-- Round trip of one sample strictly inside full scale. -/
theorem sample_roundTrip (x : ℚ) (h1 : -1 ≤ x) (h2 : x < 1) :
    |x - decodeSample (encodeSample x)| ≤ 1 / 32768 := by
  have hv1 : -32768 ≤ x * 32768 := by linarith
  have hv2 : x * 32768 < 32768 := by linarith
  obtain ⟨heq, herr⟩ := toInt16_in_range (x * 32768) hv1 hv2
  unfold decodeSample encodeSample
  rw [heq]
  have hrw : x - ((ratTrunc (x * 32768) : ℤ) : ℚ) / 32768
      = (x * 32768 - (ratTrunc (x * 32768) : ℤ)) / 32768 := by ring
  rw [hrw, abs_div, abs_of_pos (by norm_num : (0 : ℚ) < 32768)]
  linarith [herr]

/-- C6 counterexample: the full-scale sample 1.0 encodes to
`1 * 32768 = 32768`, which the 16-bit store wraps to -32768; it decodes
back to -1, an error of 2, far above the claimed 1/32768 bound. -/
theorem pcm_full_scale_wraps_cex :
    decodeSample (encodeSample 1) = -1 ∧
    ¬ ((1 : ℚ) - decodeSample (encodeSample 1)) ≤ 1 / 32768 := by
  have h1 : encodeSample 1 = -32768 := by
    unfold encodeSample toInt16 ratTrunc
    rw [if_pos (by norm_num : (0 : ℚ) ≤ 1 * 32768)]
    rw [show ((1 : ℚ) * 32768) = ((32768 : ℤ) : ℚ) by norm_num, Int.floor_intCast]
    norm_num
  have h2 : decodeSample (encodeSample 1) = -1 := by
    rw [h1]
    unfold decodeSample
    norm_num
  refine ⟨h2, ?_⟩
  rw [h2]
  norm_num

/-- C6 (amended): for every sequence of samples in [-1, 1) — strictly
below positive full scale — encoding to 16-bit PCM and decoding back
reproduces each sample within quantization error at most 1/32768.  (At
exactly 1.0 the store wraps, see the counterexample.) -/
theorem pcm_roundTrip_within_quantization (l : List ℚ)
    (h : ∀ x ∈ l, -1 ≤ x ∧ x < 1) :
    List.Forall₂ withinQuantization l (decodePcm (encodePcm l)) := by
  unfold decodePcm encodePcm
  rw [List.map_map, List.forall₂_map_right_iff, List.forall₂_same]
  intro x hx
  exact sample_roundTrip x (h x hx).1 (h x hx).2

/-- Witness for C6 (amended) on the one-sample chunk [1/2]. -/
theorem pcm_roundTrip_witness :
    ((-1 : ℚ) ≤ 1 / 2 ∧ (1 : ℚ) / 2 < 1) ∧
    List.Forall₂ withinQuantization [(1 : ℚ) / 2]
      (decodePcm (encodePcm [(1 : ℚ) / 2])) :=
  ⟨⟨by norm_num, by norm_num⟩,
    pcm_roundTrip_within_quantization [(1 : ℚ) / 2]
      (by
        intro x hx
        rw [List.mem_singleton] at hx
        rw [hx]
        exact ⟨by norm_num, by norm_num⟩)⟩

/-- The playback scheduler's only state: `nextStartTimeRef`. -/
structure SchedulerState where
  nextStartTime : ℚ
deriving DecidableEq, Repr

/-- The audio-output branch of `onmessage` in App.tsx:
`startTime = max(ctx.currentTime, nextStartTimeRef.current)`, the source
starts at `startTime`, and `nextStartTimeRef.current = startTime +
buffer.duration`.  Returns the scheduled start time and the new state. -/
def scheduleBuffer (st : SchedulerState) (now duration : ℚ) : ℚ × SchedulerState :=
  let startTime := max now st.nextStartTime
  (startTime, { nextStartTime := startTime + duration })

/-- A burst of buffers handled one after another at the same clock
reading `now`: the list of scheduled start times and the final state. -/
def scheduleAll (st : SchedulerState) (now : ℚ) : List ℚ → List ℚ × SchedulerState
  | [] => ([], st)
  | d :: rest =>
    let p := scheduleBuffer st now d
    let q := scheduleAll p.2 now rest
    (p.1 :: q.1, q.2)

/-- C7: each buffer starts at `max(clockNow, nextStartTime)` — never in
the past and never before the previous buffer's end — and the next start
time advances by the buffer's duration; three buffers of durations
d1, d2, d3 arriving together at t0 (with nextStartTime ≤ t0) start at
exactly t0, t0 + d1, t0 + d1 + d2. -/
theorem playback_scheduling (st : SchedulerState) (now d t0 d1 d2 d3 : ℚ)
    (h0 : st.nextStartTime ≤ t0) (hd1 : 0 ≤ d1) (hd2 : 0 ≤ d2) :
    now ≤ (scheduleBuffer st now d).1 ∧
    st.nextStartTime ≤ (scheduleBuffer st now d).1 ∧
    (scheduleBuffer st now d).2.nextStartTime = (scheduleBuffer st now d).1 + d ∧
    (scheduleAll st t0 [d1, d2, d3]).1 = [t0, t0 + d1, t0 + d1 + d2] := by
  refine ⟨le_max_left _ _, le_max_right _ _, rfl, ?_⟩
  simp only [scheduleAll, scheduleBuffer]
  rw [max_eq_left h0]
  rw [max_eq_right (by linarith : t0 ≤ t0 + d1)]
  rw [max_eq_right (by linarith : t0 ≤ t0 + d1 + d2)]

/-- Witness for C7: empty scheduler, a buffer at clock 0, and a burst of
three buffers of durations 1, 2, 3 at clock 2. -/
theorem playback_scheduling_witness :
    ((SchedulerState.mk 0).nextStartTime ≤ 2 ∧ (0 : ℚ) ≤ 1 ∧ (0 : ℚ) ≤ 2) ∧
    ((0 : ℚ) ≤ (scheduleBuffer (SchedulerState.mk 0) 0 1).1 ∧
      (SchedulerState.mk 0).nextStartTime ≤ (scheduleBuffer (SchedulerState.mk 0) 0 1).1 ∧
      (scheduleBuffer (SchedulerState.mk 0) 0 1).2.nextStartTime
        = (scheduleBuffer (SchedulerState.mk 0) 0 1).1 + 1 ∧
      (scheduleAll (SchedulerState.mk 0) 2 [1, 2, 3]).1 = [2, 2 + 1, 2 + 1 + 2]) :=
  ⟨⟨by norm_num, by norm_num, by norm_num⟩,
    playback_scheduling (SchedulerState.mk 0) 0 1 2 1 2 3
      (by norm_num) (by norm_num) (by norm_num)⟩

end PharmaCalcs
